import Mathlib

/-!
Verification development for the FakeStoreTesting repository: a shallow
embedding of its test-data generation and schema-validation layer
(src/utils/schemaValidator.js, src/utils/testDataGenerator.js,
src/utils/testHelpers.js, src/utils/assertions.js, src/utils/apiClient.js,
src/config/environment.js), together with theorems settling the frozen
claims about that layer.

JavaScript values are modelled by `JsValue` (numbers as rationals, since
the code only performs comparisons and decimal rounding on them).  The Joi
schema combinators actually used by the repository are modelled by the
`Joi` inductive, and `validateConv` implements the subset of Joi
validation semantics these schemas exercise: default options are
abortEarly := true and convert := true, numeric strings are coerced by the
number type, object keys are optional unless marked required, and unknown
object keys are violations.  The uri string rule is modelled as a
simplified RFC 3986 check (nonempty scheme of the right character class,
a colon, a nonempty remainder, no whitespace), which agrees with Joi on
every string appearing in the claims.
-/

/-- JavaScript values as used by the repository: numbers, strings,
booleans, plain objects (association lists in insertion order), null and
undefined. -/
inductive JsValue where
  | num (q : ℚ)
  | str (s : String)
  | bool (b : Bool)
  | obj (fields : List (String × JsValue))
  | null
  | undef
deriving Repr

/-- JavaScript truthiness for the values modelled (NaN is not modelled;
no claim exercises it). -/
def jsTruthy : JsValue → Bool
  | JsValue.num q => q != 0
  | JsValue.str s => s != ""
  | JsValue.bool b => b
  | JsValue.obj _ => true
  | JsValue.null => false
  | JsValue.undef => false

/-- Is the value the undefined value? -/
def isUndefV : JsValue → Bool
  | JsValue.undef => true
  | _ => false

/-- JavaScript whitespace characters (the common WhiteSpace and
LineTerminator code points stripped by String.prototype.trim). -/
def isJsWhitespace (c : Char) : Bool :=
  c = ' ' || c = '\t' || c = '\n' || c = '\r' || c = '\x0b' || c = '\x0c' ||
  c = '\xa0' || c = '\u2028' || c = '\u2029' || c = '\ufeff'

/-- Strip leading and trailing JavaScript whitespace from a character list. -/
def jsTrimList (l : List Char) : List Char :=
  ((l.dropWhile isJsWhitespace).reverse.dropWhile isJsWhitespace).reverse

/-- JavaScript String.prototype.trim. -/
def jsTrim (s : String) : String :=
  String.mk (jsTrimList s.data)

/-- Read a digit list as a natural number (most significant digit first). -/
def digitsToNat (l : List Char) : Nat :=
  l.foldl (fun acc c => acc * 10 + (c.toNat - '0'.toNat)) 0

/-- Parse the mantissa of a JavaScript numeric literal: digits with an
optional fractional part, or a fractional part alone.  Returns the value
and the unconsumed characters. -/
def parseMantissa (l : List Char) : Option (ℚ × List Char) :=
  let ip := l.takeWhile Char.isDigit
  let rest := l.dropWhile Char.isDigit
  match rest with
  | '.' :: rest2 =>
    let fp := rest2.takeWhile Char.isDigit
    let rest3 := rest2.dropWhile Char.isDigit
    if ip.isEmpty && fp.isEmpty then none
    else some ((digitsToNat ip : ℚ) + (digitsToNat fp : ℚ) / (10 : ℚ) ^ fp.length, rest3)
  | _ => if ip.isEmpty then none else some ((digitsToNat ip : ℚ), rest)

/-- Parse an optional exponent suffix; the whole remainder must be consumed. -/
def parseExponentTail (m : ℚ) (rest : List Char) : Option ℚ :=
  match rest with
  | [] => some m
  | c :: r =>
    if c = 'e' || c = 'E' then
      let esign : ℤ := match r with
        | '-' :: _ => -1
        | _ => 1
      let r2 := match r with
        | '+' :: t => t
        | '-' :: t => t
        | t => t
      let ed := r2.takeWhile Char.isDigit
      let r3 := r2.dropWhile Char.isDigit
      if ed.isEmpty || !r3.isEmpty then none
      else some (m * (10 : ℚ) ^ (esign * (digitsToNat ed : ℤ)))
    else none

/-- The numeric-string grammar accepted by the Joi number coercion
(optional surrounding whitespace, optional sign, mantissa, optional
exponent), evaluated to a rational. -/
def parseJsNumber (s : String) : Option ℚ :=
  let l := jsTrimList s.data
  let neg : Bool := match l with
    | '-' :: _ => true
    | _ => false
  let l2 := match l with
    | '+' :: t => t
    | '-' :: t => t
    | t => t
  match parseMantissa l2 with
  | none => none
  | some (m, rest) => (parseExponentTail m rest).map (fun q => if neg then -q else q)

/-- Rules of the Joi number type used by the repository. -/
inductive NumRule where
  | integer
  | positive
  | min (bound : ℚ)
  | max (bound : ℚ)
deriving Repr, DecidableEq

/-- Rules of the Joi string type used by the repository. -/
inductive StrRule where
  | uri
deriving Repr, DecidableEq

/-- The Joi schema combinators used by the repository.  The final Bool of
each constructor records presence: true when the schema carries
.required(), false otherwise (the Joi default is optional). -/
inductive Joi where
  | number (rules : List NumRule) (required : Bool)
  | string (rules : List StrRule) (required : Bool)
  | object (keys : List (String × Joi)) (required : Bool)
deriving Repr

/-- Presence flag of a schema. -/
def Joi.isRequired : Joi → Bool
  | Joi.number _ r => r
  | Joi.string _ r => r
  | Joi.object _ r => r

/-- Does a rational satisfy a Joi number rule? -/
def numRuleOk : NumRule → ℚ → Bool
  | NumRule.integer, q => q.den = 1
  | NumRule.positive, q => 0 < q
  | NumRule.min b, q => b ≤ q
  | NumRule.max b, q => q ≤ b

/-- Joi error tag of a violated number rule. -/
def numRuleTag : NumRule → String
  | NumRule.integer => "number.integer"
  | NumRule.positive => "number.positive"
  | NumRule.min _ => "number.min"
  | NumRule.max _ => "number.max"

/-- Character class of a URI scheme after its first character. -/
def isSchemeChar (c : Char) : Bool :=
  c.isAlphanum || c = '+' || c = '-' || c = '.'

/-- Simplified RFC 3986 uri check modelling the Joi string.uri rule:
an alphabetic-initial scheme, a colon, a nonempty remainder, and no
whitespace anywhere. -/
def isUri (s : String) : Bool :=
  match s.data.dropWhile (fun c => c != ':') with
  | ':' :: tail =>
    (match s.data.takeWhile (fun c => c != ':') with
     | c :: cs => c.isAlpha && cs.all isSchemeChar
     | [] => false)
    && !tail.isEmpty && s.data.all (fun c => !isJsWhitespace c)
  | _ => false

/-- Does a string satisfy a Joi string rule? -/
def strRuleOk : StrRule → String → Bool
  | StrRule.uri, s => isUri s

/-- Joi error tag of a violated string rule. -/
def strRuleTag : StrRule → String
  | StrRule.uri => "string.uri"

/-- A single rule violation: the path of the offending key and the Joi
error tag of the violated rule. -/
structure Violation where
  path : List String
  rule : String
deriving Repr, DecidableEq

/-- Joi number coercion: numbers pass through; strings are parsed when the
convert option is on; every other type fails the number base check. -/
def coerceNumber (convert : Bool) : JsValue → Option ℚ
  | JsValue.num q => some q
  | JsValue.str s => if convert then parseJsNumber s else none
  | _ => none

/-- Object member access as Joi sees it: a key whose value is undefined
counts as absent. -/
def objGet (fields : List (String × JsValue)) (k : String) : Option JsValue :=
  match List.lookup k fields with
  | some JsValue.undef => none
  | some v => some v
  | none => none

mutual

/-- Joi validation core: returns the (possibly coerced) value and the full
list of rule violations, in schema-key order followed by unknown-key
order. -/
def validateConv (convert : Bool) : Joi → JsValue → JsValue × List Violation
  | Joi.number rules _, v =>
    match coerceNumber convert v with
    | some q => (JsValue.num q, (rules.filter (fun r => !numRuleOk r q)).map (fun r => ⟨[], numRuleTag r⟩))
    | none => (v, [⟨[], "number.base"⟩])
  | Joi.string rules _, v =>
    match v with
    | JsValue.str s =>
      if s = "" then (v, [⟨[], "string.empty"⟩])
      else (v, (rules.filter (fun r => !strRuleOk r s)).map (fun r => ⟨[], strRuleTag r⟩))
    | _ => (v, [⟨[], "string.base"⟩])
  | Joi.object keys _, v =>
    match v with
    | JsValue.obj fields =>
      let errs := checkKeys convert keys fields
      let unknowns := (fields.filter (fun kv => (List.lookup kv.1 keys).isNone && !isUndefV kv.2)).map
        (fun kv => (⟨[kv.1], "object.unknown"⟩ : Violation))
      let convd := convDeclared convert keys fields
      let newFields := fields.map (fun kv => (kv.1, (List.lookup kv.1 convd).getD kv.2))
      (JsValue.obj newFields, errs ++ unknowns)
    | _ => (v, [⟨[], "object.base"⟩])

/-- Validate each declared key of an object schema against the candidate
fields, collecting violations with key-prefixed paths. -/
def checkKeys (convert : Bool) : List (String × Joi) → List (String × JsValue) → List Violation
  | [], _ => []
  | (k, sub) :: rest, fields =>
    (match objGet fields k with
     | none => if sub.isRequired then [⟨[k], "any.required"⟩] else []
     | some fv => ((validateConv convert sub fv).2).map (fun e => ⟨k :: e.path, e.rule⟩))
    ++ checkKeys convert rest fields

/-- Converted values of the declared keys present in the candidate. -/
def convDeclared (convert : Bool) : List (String × Joi) → List (String × JsValue) → List (String × JsValue)
  | [], _ => []
  | (k, sub) :: rest, fields =>
    (match objGet fields k with
     | none => []
     | some fv => [(k, (validateConv convert sub fv).1)])
    ++ convDeclared convert rest fields

end

/-- Options of a Joi validate call; Joi defaults are abortEarly := true
and convert := true. -/
structure ValidationOptions where
  abortEarly : Bool
  convert : Bool
deriving Repr, DecidableEq

/-- The Joi default options. -/
def defaultOptions : ValidationOptions := ⟨true, true⟩

/-- schema.validate(data, opts): with abortEarly the reported error holds
only the first violation, otherwise all of them. -/
def joiValidate (schema : Joi) (data : JsValue) (opts : ValidationOptions) :
    JsValue × List Violation :=
  let r := validateConv opts.convert schema data
  (r.1, if opts.abortEarly then r.2.take 1 else r.2)

/-!
## Schemas of src/utils/schemaValidator.js
-/

/-- Product rating schema: rate in [0,5] required, count a non-negative
integer required. -/
def ratingSchema : Joi :=
  Joi.object
    [("rate", Joi.number [NumRule.min 0, NumRule.max 5] true),
     ("count", Joi.number [NumRule.integer, NumRule.min 0] true)]
    false

/-- Complete product schema (GET responses).  The rating key carries
ratingSchema without .required(), so it is optional. -/
def productSchema : Joi :=
  Joi.object
    [("id", Joi.number [NumRule.integer, NumRule.positive] true),
     ("title", Joi.string [] true),
     ("price", Joi.number [NumRule.positive] true),
     ("description", Joi.string [] true),
     ("category", Joi.string [] true),
     ("image", Joi.string [StrRule.uri] true),
     ("rating", ratingSchema)]
    false

/-- Product schema without rating (POST and PUT responses); price only
needs to be at least 0 here. -/
def productSchemaWithoutRating : Joi :=
  Joi.object
    [("id", Joi.number [NumRule.integer, NumRule.positive] true),
     ("title", Joi.string [] true),
     ("price", Joi.number [NumRule.min 0] true),
     ("description", Joi.string [] true),
     ("category", Joi.string [] true),
     ("image", Joi.string [StrRule.uri] true)]
    false

/-- Product creation schema (request body): no id, no rating, price
strictly positive. -/
def createProductSchema : Joi :=
  Joi.object
    [("title", Joi.string [] true),
     ("price", Joi.number [NumRule.positive] true),
     ("description", Joi.string [] true),
     ("category", Joi.string [] true),
     ("image", Joi.string [StrRule.uri] true)]
    false

/-- validateSchema(data, schema) of schemaValidator.js: a Joi validate
call passing abortEarly: false and leaving convert at its default true. -/
def validateSchema (data : JsValue) (schema : Joi) : JsValue × List Violation :=
  joiValidate schema data ⟨false, defaultOptions.convert⟩

/-- assertSchema(data, schema): throws when validateSchema reports an
error, modelled as an Except. -/
def assertSchema (data : JsValue) (schema : Joi) : Except String Unit :=
  if (validateSchema data schema).2 = [] then Except.ok ()
  else Except.error "Schema validation failed"

/-!
## Spec-side conformance predicate

`conforms` restates the declarative meaning of a schema (every rule
satisfied) with no error-list or value plumbing; it is compared against
the validator to show that an empty violation list characterises exactly
the conforming candidates.
-/

mutual

/-- Modelled from the spec: a candidate satisfies every rule of the
schema (after the same numeric coercion the validator applies). -/
def conforms : Joi → JsValue → Bool
  | Joi.number rules _, v =>
    match coerceNumber true v with
    | some q => rules.all (fun r => numRuleOk r q)
    | none => false
  | Joi.string rules _, v =>
    match v with
    | JsValue.str s => s != "" && rules.all (fun r => strRuleOk r s)
    | _ => false
  | Joi.object keys _, v =>
    match v with
    | JsValue.obj fields =>
      conformsKeys keys fields &&
      fields.all (fun kv => (List.lookup kv.1 keys).isSome || isUndefV kv.2)
    | _ => false

/-- Every declared key is either validly absent or conforming. -/
def conformsKeys : List (String × Joi) → List (String × JsValue) → Bool
  | [], _ => true
  | (k, sub) :: rest, fields =>
    (match objGet fields k with
     | none => !sub.isRequired
     | some fv => conforms sub fv)
    && conformsKeys rest fields

end

/-!
## src/utils/testDataGenerator.js

Each call of Math.random() is modelled as one draw in [0,1), supplied
explicitly: a single rational for a single call, a function from the loop
index for calls inside a loop.
-/

/-- The alphabet of generateRandomString. -/
def charsAlphanum : String :=
  "ABCDEFGHIJKLMNOPQRSTUVWXYZabcdefghijklmnopqrstuvwxyz0123456789"

/-- JavaScript String.prototype.charAt: the one-character string at the
index, or the empty string when the index is out of range. -/
def jsCharAt (s : String) (i : ℤ) : String :=
  if h : 0 ≤ i ∧ i.toNat < s.data.length then
    String.mk [s.data.get ⟨i.toNat, h.2⟩]
  else ""

/-- generateRandomString(length): length characters, each picked by
chars.charAt(Math.floor(Math.random() * chars.length)). -/
def generateRandomString (length : Nat) (rand : Nat → ℚ) : String :=
  (List.range length).foldl
    (fun result i => result ++ jsCharAt charsAlphanum ⌊rand i * (charsAlphanum.data.length : ℚ)⌋)
    ""

/-- parseFloat(num.toFixed(decimals)) modelled as rounding to the given
number of decimal places. -/
def roundToDecimals (decimals : Nat) (q : ℚ) : ℚ :=
  ((round (q * (10 : ℚ) ^ decimals) : ℤ) : ℚ) / (10 : ℚ) ^ decimals

/-- generateRandomNumber(min, max, decimals): Math.random()*(max-min)+min
rounded to the given decimals. -/
def generateRandomNumber (minv maxv : ℚ) (decimals : Nat) (r : ℚ) : ℚ :=
  roundToDecimals decimals (r * (maxv - minv) + minv)

/-- The fixed category set of generateProductData. -/
def categories : List String :=
  ["electronics", "jewelery", "men's clothing", "women's clothing"]

/-- JavaScript array indexing: undefined outside the range. -/
def jsIndexStrings (l : List String) (i : ℤ) : JsValue :=
  if h : 0 ≤ i ∧ i.toNat < l.length then JsValue.str (l.get ⟨i.toNat, h.2⟩)
  else JsValue.undef

/-- JavaScript property access on an association-list object: undefined
when the key is missing. -/
def jsLookup (fields : List (String × JsValue)) (k : String) : JsValue :=
  (List.lookup k fields).getD JsValue.undef

/-- JavaScript a || b on values. -/
def jsOr (a b : JsValue) : JsValue :=
  if jsTruthy a then a else b

/-- The five field defaults computed inside generateProductData before the
spread, each falling back only when the override is missing or falsy
(price: only when undefined). -/
def productDefaults (randTitle : Nat → ℚ) (rPrice : ℚ) (randDesc : Nat → ℚ) (rCat : ℚ)
    (overrides : List (String × JsValue)) : List (String × JsValue) :=
  [("title", jsOr (jsLookup overrides "title")
      (JsValue.str ("Test Product " ++ generateRandomString 5 randTitle))),
   ("price", if isUndefV (jsLookup overrides "price") then
      JsValue.num (generateRandomNumber 1 999 2 rPrice)
    else jsLookup overrides "price"),
   ("description", jsOr (jsLookup overrides "description")
      (JsValue.str ("Test product description " ++ generateRandomString 20 randDesc))),
   ("image", jsOr (jsLookup overrides "image")
      (JsValue.str "https://fakestoreapi.com/img/test.jpg")),
   ("category", jsOr (jsLookup overrides "category")
      (jsIndexStrings categories ⌊rCat * (categories.length : ℚ)⌋))]

/-- JavaScript object-literal spread { ...base fields..., ...overrides }:
keys of the base keep their position but take the override value when
present; override keys not in the base are appended. -/
def spreadMerge (base overrides : List (String × JsValue)) : List (String × JsValue) :=
  base.map (fun kv => (kv.1, (List.lookup kv.1 overrides).getD kv.2)) ++
  overrides.filter (fun kv => (List.lookup kv.1 base).isNone)

/-- generateProductData(overrides): the object literal with the five
defaulted fields followed by ...overrides. -/
def generateProductData (randTitle : Nat → ℚ) (rPrice : ℚ) (randDesc : Nat → ℚ) (rCat : ℚ)
    (overrides : List (String × JsValue)) : List (String × JsValue) :=
  spreadMerge (productDefaults randTitle rPrice randDesc rCat overrides) overrides

/-- getValidProductId(): Math.floor(Math.random() * 20) + 1. -/
def getValidProductId (r : ℚ) : ℤ :=
  ⌊r * 20⌋ + 1

/-- The pair returned by getBoundaryProductIds(). -/
structure BoundaryIds where
  min : ℤ
  max : ℤ
deriving Repr, DecidableEq

/-- getBoundaryProductIds(): always { min: 1, max: 20 }. -/
def getBoundaryProductIds : BoundaryIds :=
  ⟨1, 20⟩

/-- getInvalidProductId(): Math.floor(Math.random() * 9000) + 1000. -/
def getInvalidProductId (r : ℚ) : ℤ :=
  ⌊r * 9000⌋ + 1000

/-- getNonNumericProductId(): generateRandomString(5). -/
def getNonNumericProductId (rand : Nat → ℚ) : String :=
  generateRandomString 5 rand

/-!
## src/utils/testHelpers.js: TestContext and retryWithBackoff

Product IDs handed to the context are JavaScript primitives (the tests
pass numbers; the claim also exercises null and undefined), so includes()
with === semantics is structural equality here.
-/

/-- JavaScript primitive values, over which === is structural equality. -/
inductive JsPrim where
  | num (q : ℚ)
  | str (s : String)
  | bool (b : Bool)
  | null
  | undef
deriving Repr, DecidableEq

/-- Truthiness of a primitive. -/
def jsPrimTruthy : JsPrim → Bool
  | JsPrim.num q => q != 0
  | JsPrim.str s => s != ""
  | JsPrim.bool b => b
  | JsPrim.null => false
  | JsPrim.undef => false

/-- addCreatedProduct(productId): push only truthy IDs not already
tracked. -/
def addCreatedProduct (createdProducts : List JsPrim) (productId : JsPrim) : List JsPrim :=
  if jsPrimTruthy productId = true ∧ productId ∉ createdProducts then
    createdProducts ++ [productId]
  else createdProducts

/-- getCreatedProducts(): a fresh copy of the tracked list ([...list]). -/
def getCreatedProducts (createdProducts : List JsPrim) : List JsPrim :=
  createdProducts

/-- clearCreatedProducts(): reset to the empty list. -/
def clearCreatedProducts (_createdProducts : List JsPrim) : List JsPrim :=
  []

/-- One TestContext operation of the claim. -/
inductive CtxOp where
  | add (productId : JsPrim)
  | clear
deriving Repr

/-- Run a sequence of TestContext operations from a starting list. -/
def runCtxOps (ops : List CtxOp) (createdProducts : List JsPrim) : List JsPrim :=
  match ops with
  | [] => createdProducts
  | CtxOp.add v :: rest => runCtxOps rest (addCreatedProduct createdProducts v)
  | CtxOp.clear :: rest => runCtxOps rest (clearCreatedProducts createdProducts)

/-- retryWithBackoff recursion: fn is the outcome of each successive
attempt (indexed from k), retries the remaining retry budget, delay the
current wait.  Returns the final outcome, the number of attempts made and
the list of waits performed. -/
def retryAux {ε α : Type} (fn : Nat → Except ε α) (k : Nat) (retries : Nat) (delay : ℚ) :
    Except ε α × Nat × List ℚ :=
  match fn k with
  | Except.ok a => (Except.ok a, 1, [])
  | Except.error e =>
    match retries with
    | 0 => (Except.error e, 1, [])
    | r + 1 =>
      let res := retryAux fn (k + 1) r (delay * 2)
      (res.1, res.2.1 + 1, delay :: res.2.2)

/-- retryWithBackoff(fn, retries, delay) starting at the first attempt. -/
def retryWithBackoff {ε α : Type} (fn : Nat → Except ε α) (retries : Nat) (delay : ℚ) :
    Except ε α × Nat × List ℚ :=
  retryAux fn 0 retries delay

/-!
## src/utils/assertions.js: assertStringNotEmpty
-/

/-- assertStringNotEmpty(str): typeof str is string, str.length > 0 and
str.trim() is not the empty string; true means every expect passed. -/
def assertStringNotEmpty : JsValue → Bool
  | JsValue.str s => decide (s.length > 0) && decide (jsTrim s ≠ "")
  | _ => false

/-!
## src/config/environment.js and src/utils/apiClient.js
-/

/-- One environment profile. -/
structure EnvConfig where
  baseURL : String
  timeout : ℕ
  retryAttempts : ℕ
  logLevel : String
deriving Repr, DecidableEq

/-- The four static profiles of environment.js. -/
def environments : List (String × EnvConfig) :=
  [("development", ⟨"https://fakestoreapi.com", 10000, 3, "debug"⟩),
   ("test", ⟨"https://fakestoreapi.com", 10000, 3, "debug"⟩),
   ("staging", ⟨"https://fakestoreapi.com", 8000, 2, "info"⟩),
   ("production", ⟨"https://fakestoreapi.com", 5000, 1, "error"⟩)]

/-- currentEnv: process.env.NODE_ENV || 'development' (an unset or empty
variable falls back, any other value is taken as given). -/
def currentEnv (nodeEnv : Option String) : String :=
  match nodeEnv with
  | some s => if s ≠ "" then s else "development"
  | none => "development"

/-- The exported config: environments[currentEnv], undefined (none) for a
name outside the map. -/
def envConfigFor (nodeEnv : Option String) : Option EnvConfig :=
  List.lookup (currentEnv nodeEnv) environments

/-- The ApiClient constructor reads config.baseURL; on an undefined config
this throws a TypeError, modelled as an Except carrying the client
baseURL on success. -/
def mkApiClient : Option EnvConfig → Except String String
  | none => Except.error "TypeError: cannot read baseURL of undefined"
  | some c => Except.ok c.baseURL

/-- buildUrl(endpoint) of a client whose construction may have failed:
every operation on a failed client fails. -/
def clientBuildUrl (client : Except String String) (endpoint : String) : Except String String :=
  client.map (fun base => base ++ endpoint)

/-!
## Helper lemmas
-/

/-- Trimming yields the empty list exactly when every character is
whitespace. -/
theorem jsTrimList_eq_nil_iff (l : List Char) :
    jsTrimList l = [] ↔ ∀ c ∈ l, isJsWhitespace c = true := by
  unfold jsTrimList
  rw [List.reverse_eq_nil_iff, List.dropWhile_eq_nil_iff]
  constructor
  · intro h c hc
    have hsplit := List.takeWhile_append_dropWhile isJsWhitespace l
    rcases List.mem_append.mp (by rw [hsplit]; exact hc) with h1 | h2
    · exact List.mem_takeWhile_imp h1
    · exact h c (List.mem_reverse.mpr h2)
  · intro h c hc
    exact h c ((List.dropWhile_sublist isJsWhitespace).mem (List.mem_reverse.mp hc))

/-- C5: the non-empty-string assertion helper passes exactly on strings
containing at least one non-whitespace character; it fails on every
non-string value, on the empty string and on whitespace-only strings. -/
theorem assertStringNotEmpty_iff (v : JsValue) :
    assertStringNotEmpty v = true ↔
      ∃ s, v = JsValue.str s ∧ ∃ c ∈ s.data, isJsWhitespace c = false := by
  cases v with
  | str s =>
    simp only [assertStringNotEmpty, Bool.and_eq_true, decide_eq_true_eq]
    constructor
    · rintro ⟨_, htrim⟩
      refine ⟨s, rfl, ?_⟩
      by_contra hall
      push_neg at hall
      apply htrim
      have hnil : jsTrimList s.data = [] := by
        rw [jsTrimList_eq_nil_iff]
        intro c hc
        have := hall c hc
        simp only [ne_eq, Bool.not_eq_false] at this
        exact this
      show jsTrim s = ""
      unfold jsTrim
      rw [hnil]
    · rintro ⟨s2, hs2, c, hc, hws⟩
      obtain rfl : s = s2 := by injection hs2
      have hne : s.data ≠ [] := fun h0 => by rw [h0] at hc; exact (List.not_mem_nil c) hc
      refine ⟨?_, ?_⟩
      · have : 0 < s.data.length := List.length_pos.mpr hne
        exact this
      · intro htr
        have hnil : jsTrimList s.data = [] := by
          have : (jsTrim s).data = ("" : String).data := by rw [htr]
          simpa [jsTrim] using this
        have := (jsTrimList_eq_nil_iff s.data).mp hnil c hc
        rw [hws] at this
        exact Bool.false_ne_true this
  | num q =>
    constructor
    · intro h; exact absurd h (by simp [assertStringNotEmpty])
    · rintro ⟨s, hs, _⟩; exact JsValue.noConfusion hs
  | bool b =>
    constructor
    · intro h; exact absurd h (by simp [assertStringNotEmpty])
    · rintro ⟨s, hs, _⟩; exact JsValue.noConfusion hs
  | obj fields =>
    constructor
    · intro h; exact absurd h (by simp [assertStringNotEmpty])
    · rintro ⟨s, hs, _⟩; exact JsValue.noConfusion hs
  | null =>
    constructor
    · intro h; exact absurd h (by simp [assertStringNotEmpty])
    · rintro ⟨s, hs, _⟩; exact JsValue.noConfusion hs
  | undef =>
    constructor
    · intro h; exact absurd h (by simp [assertStringNotEmpty])
    · rintro ⟨s, hs, _⟩; exact JsValue.noConfusion hs

/-- Unfolding: a successful attempt stops immediately. -/
theorem retryAux_ok {ε α : Type} {fn : Nat → Except ε α} {k retries : Nat} {d : ℚ} {a : α}
    (h : fn k = Except.ok a) : retryAux fn k retries d = (Except.ok a, 1, []) := by
  conv_lhs => unfold retryAux
  rw [h]

/-- Unfolding: a failure with no budget left rethrows. -/
theorem retryAux_err_zero {ε α : Type} {fn : Nat → Except ε α} {k : Nat} {d : ℚ} {e : ε}
    (h : fn k = Except.error e) : retryAux fn k 0 d = (Except.error e, 1, []) := by
  conv_lhs => unfold retryAux
  rw [h]

/-- Unfolding: a failure with budget left waits and recurses with the
doubled delay. -/
theorem retryAux_err_succ {ε α : Type} {fn : Nat → Except ε α} {k r : Nat} {d : ℚ} {e : ε}
    (h : fn k = Except.error e) :
    retryAux fn k (r + 1) d =
      ((retryAux fn (k + 1) r (d * 2)).1, (retryAux fn (k + 1) r (d * 2)).2.1 + 1,
        d :: (retryAux fn (k + 1) r (d * 2)).2.2) := by
  conv_lhs => unfold retryAux
  rw [h]

/-- A failing outcome is an error value. -/
theorem exists_error_of_isOk_false {ε α : Type} {x : Except ε α} (h : x.isOk = false) :
    ∃ e, x = Except.error e := by
  cases x with
  | ok a => exact absurd h (by simp [Except.isOk, Except.toBool])
  | error e => exact ⟨e, rfl⟩

/-- The doubled-delay list shifts into the next power of two. -/
theorem delay_list_shift (j : Nat) (d : ℚ) :
    d :: (List.range j).map (fun i => 2 ^ i * (d * 2)) =
      (List.range (j + 1)).map (fun i => 2 ^ i * d) := by
  rw [List.range_succ_eq_map, List.map_cons, List.map_map]
  refine congrArg₂ _ (by ring) ?_
  refine List.map_congr_left (fun i _ => ?_)
  show 2 ^ i * (d * 2) = 2 ^ (i + 1) * d
  ring

/-- When attempts k, ..., k+j-1 fail and attempt k+j succeeds within the
budget, retryAux returns that success after j+1 calls, having waited the
doubling delays. -/
theorem retryAux_first_success {ε α : Type} (fn : Nat → Except ε α) (a : α) :
    ∀ (j retries k : Nat) (d : ℚ), j ≤ retries →
      (∀ i, i < j → (fn (k + i)).isOk = false) → fn (k + j) = Except.ok a →
      retryAux fn k retries d =
        (Except.ok a, j + 1, (List.range j).map (fun i => 2 ^ i * d)) := by
  intro j
  induction j with
  | zero =>
    intro retries k d _ _ hsucc
    rw [Nat.add_zero] at hsucc
    rw [retryAux_ok hsucc]
    rfl
  | succ j ih =>
    intro retries k d hle hfail hsucc
    have h0 : (fn k).isOk = false := by
      have := hfail 0 (Nat.succ_pos j)
      rwa [Nat.add_zero] at this
    obtain ⟨e, he⟩ := exists_error_of_isOk_false h0
    obtain ⟨r, rfl⟩ : ∃ r, retries = r + 1 := ⟨retries - 1, by omega⟩
    have ihr := ih r (k + 1) (d * 2) (by omega)
      (fun i hi => by
        have := hfail (i + 1) (by omega)
        rwa [show k + (i + 1) = k + 1 + i by omega] at this)
      (by rwa [show k + 1 + j = k + (j + 1) by omega])
    rw [retryAux_err_succ he, ihr]
    exact Prod.ext rfl (Prod.ext rfl (delay_list_shift j d))

/-- When every attempt within the budget fails, retryAux makes all
retries+1 calls, waits every doubling delay, and returns the outcome of
the final attempt. -/
theorem retryAux_all_fail {ε α : Type} (fn : Nat → Except ε α) :
    ∀ (retries k : Nat) (d : ℚ), (∀ i, i ≤ retries → (fn (k + i)).isOk = false) →
      retryAux fn k retries d =
        (fn (k + retries), retries + 1, (List.range retries).map (fun i => 2 ^ i * d)) := by
  intro retries
  induction retries with
  | zero =>
    intro k d hfail
    have h0 : (fn k).isOk = false := by
      have := hfail 0 (Nat.le_refl 0)
      rwa [Nat.add_zero] at this
    obtain ⟨e, he⟩ := exists_error_of_isOk_false h0
    rw [retryAux_err_zero he, Nat.add_zero, he]
    rfl
  | succ r ih =>
    intro k d hfail
    have h0 : (fn k).isOk = false := by
      have := hfail 0 (Nat.zero_le _)
      rwa [Nat.add_zero] at this
    obtain ⟨e, he⟩ := exists_error_of_isOk_false h0
    have ihr := ih (k + 1) (d * 2)
      (fun i hi => by
        have := hfail (i + 1) (by omega)
        rwa [show k + (i + 1) = k + 1 + i by omega] at this)
    rw [retryAux_err_succ he, ihr]
    refine Prod.ext ?_ (Prod.ext rfl (delay_list_shift r d))
    show fn (k + 1 + r) = fn (k + (r + 1))
    rw [show k + 1 + r = k + (r + 1) by omega]

/-- retryAux never makes more than retries+1 calls. -/
theorem retryAux_calls_le {ε α : Type} (fn : Nat → Except ε α) :
    ∀ (retries k : Nat) (d : ℚ), (retryAux fn k retries d).2.1 ≤ retries + 1 := by
  intro retries
  induction retries with
  | zero =>
    intro k d
    cases hfk : fn k with
    | ok a => rw [retryAux_ok hfk]
    | error e => rw [retryAux_err_zero hfk]
  | succ r ih =>
    intro k d
    cases hfk : fn k with
    | ok a =>
      rw [retryAux_ok hfk]
      show 1 ≤ r + 1 + 1
      omega
    | error e =>
      rw [retryAux_err_succ hfk]
      have := ih (k + 1) (d * 2)
      show (retryAux fn (k + 1) r (d * 2)).2.1 + 1 ≤ r + 1 + 1
      omega

/-- C7: retryWithBackoff(fn, n, d) terminates with at most n+1 calls of
fn (the model is a total function, so termination is structural), returns
the first success together with its call count and the doubling delays
d, 2d, 4d, ... waited before it, and when every attempt fails it makes
exactly n+1 calls and rethrows the last error. -/
theorem retryWithBackoff_spec :
    (∀ (ε α : Type) (fn : Nat → Except ε α) (retries j : Nat) (d : ℚ) (a : α),
      j ≤ retries → (∀ i, i < j → (fn i).isOk = false) → fn j = Except.ok a →
      retryWithBackoff fn retries d =
        (Except.ok a, j + 1, (List.range j).map (fun i => 2 ^ i * d))) ∧
    (∀ (ε α : Type) (fn : Nat → Except ε α) (retries : Nat) (d : ℚ),
      (∀ i, i ≤ retries → (fn i).isOk = false) →
      retryWithBackoff fn retries d =
        (fn retries, retries + 1, (List.range retries).map (fun i => 2 ^ i * d))) ∧
    (∀ (ε α : Type) (fn : Nat → Except ε α) (retries : Nat) (d : ℚ),
      (retryWithBackoff fn retries d).2.1 ≤ retries + 1) := by
  refine ⟨?_, ?_, ?_⟩
  · intro ε α fn retries j d a hle hfail hsucc
    exact retryAux_first_success fn a j retries 0 d hle
      (fun i hi => by simpa using hfail i hi) (by simpa using hsucc)
  · intro ε α fn retries d hfail
    have := retryAux_all_fail fn retries 0 d (fun i hi => by simpa using hfail i hi)
    simpa using this
  · intro ε α fn retries d
    exact retryAux_calls_le fn retries 0 d

/-- The attempt sequence used to witness retryWithBackoff_spec: two
failures, then success. -/
def fnRetryW : Nat → Except String Nat :=
  fun i => if i < 2 then Except.error "boom" else Except.ok 42

/-- Witness for C7: a concrete run with two failures then a success. -/
theorem retryWithBackoff_spec_witness :
    retryWithBackoff fnRetryW 3 1 = (Except.ok 42, 3, [(1 : ℚ), 2]) := by
  have h := retryWithBackoff_spec.1 String Nat fnRetryW 3 2 1 42 (by omega)
    (fun i hi => by interval_cases i <;> rfl)
    (by rfl)
  rw [h]
  refine Prod.ext rfl (Prod.ext rfl ?_)
  show (List.range 2).map (fun i => 2 ^ i * (1 : ℚ)) = [(1 : ℚ), 2]
  norm_num [List.range_succ]

/-- addCreatedProduct preserves the no-duplicates / no-falsy invariant. -/
theorem addCreatedProduct_invariant (st : List JsPrim) (v : JsPrim)
    (hnd : st.Nodup) (htr : ∀ x ∈ st, jsPrimTruthy x = true) :
    (addCreatedProduct st v).Nodup ∧ ∀ x ∈ addCreatedProduct st v, jsPrimTruthy x = true := by
  unfold addCreatedProduct
  by_cases h : jsPrimTruthy v = true ∧ v ∉ st
  · rw [if_pos h]
    constructor
    · rw [List.nodup_append]
      exact ⟨hnd, List.nodup_singleton v, fun a ha hb => by
        rw [List.mem_singleton] at hb
        exact h.2 (hb ▸ ha)⟩
    · intro x hx
      rcases List.mem_append.mp hx with h1 | h2
      · exact htr x h1
      · rw [List.mem_singleton] at h2
        exact h2 ▸ h.1
  · rw [if_neg h]
    exact ⟨hnd, htr⟩

/-- Any run of TestContext operations preserves the invariant. -/
theorem runCtxOps_invariant (ops : List CtxOp) :
    ∀ st : List JsPrim, st.Nodup → (∀ x ∈ st, jsPrimTruthy x = true) →
      (runCtxOps ops st).Nodup ∧ ∀ x ∈ runCtxOps ops st, jsPrimTruthy x = true := by
  induction ops with
  | nil => intro st hnd htr; exact ⟨hnd, htr⟩
  | cons op rest ih =>
    intro st hnd htr
    cases op with
    | add v =>
      have h := addCreatedProduct_invariant st v hnd htr
      exact ih (addCreatedProduct st v) h.1 h.2
    | clear =>
      exact ih [] List.nodup_nil (fun x hx => absurd hx (List.not_mem_nil x))

/-- C8: after any sequence of add and clear operations from the fresh
context, the created-products list has no duplicate and no falsy entries;
adding 0, null or undefined never changes the list; and getCreatedProducts
is the identity on the tracked list (the spread-copy means callers never
alias the internal state, which a pure model renders exactly). -/
theorem testContext_invariant :
    (∀ ops : List CtxOp,
      (getCreatedProducts (runCtxOps ops [])).Nodup ∧
      ∀ v ∈ getCreatedProducts (runCtxOps ops []), jsPrimTruthy v = true) ∧
    (∀ st : List JsPrim,
      addCreatedProduct st (JsPrim.num 0) = st ∧
      addCreatedProduct st JsPrim.null = st ∧
      addCreatedProduct st JsPrim.undef = st) ∧
    (∀ st : List JsPrim, getCreatedProducts st = st) := by
  refine ⟨?_, ?_, fun st => rfl⟩
  · intro ops
    exact runCtxOps_invariant ops [] List.nodup_nil (fun x hx => absurd hx (List.not_mem_nil x))
  · intro st
    refine ⟨?_, ?_, ?_⟩ <;>
      · unfold addCreatedProduct
        rw [if_neg]
        intro h
        exact absurd h.1 (by simp [jsPrimTruthy])

/-- C10: outside the four profiles the environments map yields none, so
the ApiClient constructor fails on config.baseURL and every client
operation fails; a non-empty NODE_ENV is taken as given (only an unset or
empty one falls back to development). -/
theorem envConfig_outside_profiles (s : String)
    (h : s ∉ ["development", "test", "staging", "production"]) :
    List.lookup s environments = none ∧
    mkApiClient (List.lookup s environments) =
      Except.error "TypeError: cannot read baseURL of undefined" ∧
    (∀ endpoint, (clientBuildUrl (mkApiClient (List.lookup s environments)) endpoint).isOk = false) ∧
    (s ≠ "" → envConfigFor (some s) = none) := by
  simp only [List.mem_cons, List.not_mem_nil, or_false, not_or] at h
  obtain ⟨h1, h2, h3, h4⟩ := h
  have e1 : (s == "development") = false := beq_eq_false_iff_ne.mpr h1
  have e2 : (s == "test") = false := beq_eq_false_iff_ne.mpr h2
  have e3 : (s == "staging") = false := beq_eq_false_iff_ne.mpr h3
  have e4 : (s == "production") = false := beq_eq_false_iff_ne.mpr h4
  have hlook : List.lookup s environments = none := by
    simp [environments, List.lookup, e1, e2, e3, e4]
  refine ⟨hlook, ?_, ?_, ?_⟩
  · rw [hlook]
    rfl
  · intro endpoint
    rw [hlook]
    rfl
  · intro hne
    simp only [envConfigFor, currentEnv]
    rw [if_pos hne]
    exact hlook

/-- Witness for C10: the environment name qa selects no profile and the
client fails to construct. -/
theorem envConfig_outside_profiles_witness :
    envConfigFor (some "qa") = none ∧
    mkApiClient (List.lookup "qa" environments) =
      Except.error "TypeError: cannot read baseURL of undefined" := by
  have h := envConfig_outside_profiles "qa" (by decide)
  exact ⟨h.2.2.2 (by decide), h.2.1⟩

/-- Bounds of getValidProductId for a draw in [0,1). -/
theorem getValidProductId_bounds (r : ℚ) (h0 : 0 ≤ r) (h1 : r < 1) :
    1 ≤ getValidProductId r ∧ getValidProductId r ≤ 20 := by
  unfold getValidProductId
  constructor
  · have : 0 ≤ ⌊r * 20⌋ := Int.floor_nonneg.mpr (by nlinarith)
    omega
  · have : ⌊r * 20⌋ < 20 := Int.floor_lt.mpr (by push_cast; nlinarith)
    omega

/-- Every ID in [1,20] is hit by some draw. -/
theorem getValidProductId_surj (k : ℤ) (hk1 : 1 ≤ k) (hk2 : k ≤ 20) :
    ∃ r : ℚ, 0 ≤ r ∧ r < 1 ∧ getValidProductId r = k := by
  have hq1 : (1 : ℚ) ≤ (k : ℚ) := by exact_mod_cast hk1
  have hq2 : (k : ℚ) ≤ 20 := by exact_mod_cast hk2
  refine ⟨((k - 1 : ℤ) : ℚ) / 20, ?_, ?_, ?_⟩
  · apply div_nonneg _ (by norm_num)
    push_cast
    linarith
  · rw [div_lt_one (by norm_num)]
    push_cast
    linarith
  · unfold getValidProductId
    rw [div_mul_cancel₀ _ (by norm_num : (20 : ℚ) ≠ 0), Int.floor_intCast]
    omega

/-- Bounds of getInvalidProductId for a draw in [0,1). -/
theorem getInvalidProductId_bounds (r : ℚ) (h0 : 0 ≤ r) (h1 : r < 1) :
    1000 ≤ getInvalidProductId r ∧ getInvalidProductId r ≤ 9999 := by
  unfold getInvalidProductId
  constructor
  · have : 0 ≤ ⌊r * 9000⌋ := Int.floor_nonneg.mpr (by nlinarith)
    omega
  · have : ⌊r * 9000⌋ < 9000 := Int.floor_lt.mpr (by push_cast; nlinarith)
    omega

/-- Every ID in [1000,9999] is hit by some draw. -/
theorem getInvalidProductId_surj (k : ℤ) (hk1 : 1000 ≤ k) (hk2 : k ≤ 9999) :
    ∃ r : ℚ, 0 ≤ r ∧ r < 1 ∧ getInvalidProductId r = k := by
  have hq1 : (1000 : ℚ) ≤ (k : ℚ) := by exact_mod_cast hk1
  have hq2 : (k : ℚ) ≤ 9999 := by exact_mod_cast hk2
  refine ⟨((k - 1000 : ℤ) : ℚ) / 9000, ?_, ?_, ?_⟩
  · apply div_nonneg _ (by norm_num)
    push_cast
    linarith
  · rw [div_lt_one (by norm_num)]
    push_cast
    linarith
  · unfold getInvalidProductId
    rw [div_mul_cancel₀ _ (by norm_num : (9000 : ℚ) ≠ 0), Int.floor_intCast]
    omega

/-- One unfolding step of generateRandomString. -/
theorem generateRandomString_succ (n : Nat) (rand : Nat → ℚ) :
    generateRandomString (n + 1) rand =
      generateRandomString n rand ++
        jsCharAt charsAlphanum ⌊rand n * (charsAlphanum.data.length : ℚ)⌋ := by
  unfold generateRandomString
  rw [List.range_succ, List.foldl_append]
  rfl

/-- The alphabet has 62 characters. -/
theorem charsAlphanum_length : charsAlphanum.data.length = 62 := by decide

/-- Every character of the alphabet is alphanumeric. -/
theorem charsAlphanum_alphanum : ∀ c ∈ charsAlphanum.data, c.isAlphanum = true := by decide

/-- In-range charAt yields a one-character string from the source. -/
theorem jsCharAt_mem (s : String) (i : ℤ) (h0 : 0 ≤ i) (hlt : i.toNat < s.data.length) :
    ∃ c ∈ s.data, jsCharAt s i = String.mk [c] := by
  unfold jsCharAt
  rw [dif_pos ⟨h0, hlt⟩]
  exact ⟨s.data.get ⟨i.toNat, hlt⟩, List.get_mem s.data i.toNat hlt, rfl⟩

/-- For in-range draws, generateRandomString yields n alphanumeric
characters. -/
theorem generateRandomString_spec (rand : Nat → ℚ) (h : ∀ i, 0 ≤ rand i ∧ rand i < 1) :
    ∀ n : Nat, (generateRandomString n rand).data.length = n ∧
      ∀ c ∈ (generateRandomString n rand).data, c.isAlphanum = true := by
  intro n
  induction n with
  | zero =>
    exact ⟨rfl, fun c hc => absurd hc (List.not_mem_nil c)⟩
  | succ n ih =>
    rw [generateRandomString_succ, charsAlphanum_length]
    have hi0 : 0 ≤ ⌊rand n * ((62 : ℕ) : ℚ)⌋ :=
      Int.floor_nonneg.mpr (mul_nonneg (h n).1 (by norm_num))
    have hilt : (⌊rand n * ((62 : ℕ) : ℚ)⌋).toNat < charsAlphanum.data.length := by
      have hlt : ⌊rand n * ((62 : ℕ) : ℚ)⌋ < ((62 : ℕ) : ℤ) := by
        apply Int.floor_lt.mpr
        push_cast
        nlinarith [(h n).1, (h n).2]
      rw [charsAlphanum_length]
      omega
    obtain ⟨c, hcmem, hceq⟩ := jsCharAt_mem charsAlphanum _ hi0 hilt
    rw [hceq, String.data_append]
    constructor
    · rw [List.length_append, ih.1]
      rfl
    · intro x hx
      rcases List.mem_append.mp hx with hx1 | hx2
      · exact ih.2 x hx1
      · have hxc : x = c := by
          have : (String.mk [c]).data = [c] := rfl
          rw [this] at hx2
          exact List.mem_singleton.mp hx2
        exact hxc ▸ charsAlphanum_alphanum c hcmem

/-- C6 counterexample: the draw that always lands on index 52 makes
getNonNumericProductId return "00000", a string of digits that even
parses as the number 0 — so the generator does not return a non-numeric
string for every draw. -/
theorem getNonNumericProductId_numeric_draw :
    getNonNumericProductId (fun _ => (26 : ℚ) / 31) = "00000" ∧
    (∀ c ∈ ("00000" : String).data, c.isDigit = true) ∧
    parseJsNumber "00000" = some 0 := by
  have hidx : ⌊(26 : ℚ) / 31 * (charsAlphanum.data.length : ℚ)⌋ = 52 := by
    rw [charsAlphanum_length]
    have hv : (26 : ℚ) / 31 * ((62 : ℕ) : ℚ) = ((52 : ℤ) : ℚ) := by
      push_cast
      norm_num
    rw [hv, Int.floor_intCast]
  have e : ∀ n : Nat, generateRandomString (n + 1) (fun _ => (26 : ℚ) / 31) =
      generateRandomString n (fun _ => (26 : ℚ) / 31) ++ "0" := by
    intro n
    rw [generateRandomString_succ]
    congr 1
    show jsCharAt charsAlphanum ⌊(26 : ℚ) / 31 * (charsAlphanum.data.length : ℚ)⌋ = "0"
    rw [hidx]
    decide
  refine ⟨?_, by decide, by decide⟩
  show generateRandomString 5 (fun _ => (26 : ℚ) / 31) = "00000"
  rw [show (5 : Nat) = 4 + 1 from rfl, e, show (4 : Nat) = 3 + 1 from rfl, e,
    show (3 : Nat) = 2 + 1 from rfl, e, show (2 : Nat) = 1 + 1 from rfl, e,
    show (1 : Nat) = 0 + 1 from rfl, e]
  decide

/-- C6 amended: valid IDs lie in [1,20] and every such ID is reachable;
boundary IDs are exactly min 1, max 20; invalid IDs lie in [1000,9999]
and every such ID is reachable; the non-numeric ID generator returns a
5-character alphanumeric string (which is not guaranteed to contain a
letter). -/
theorem idGenerators_spec :
    (∀ r : ℚ, 0 ≤ r → r < 1 → 1 ≤ getValidProductId r ∧ getValidProductId r ≤ 20) ∧
    (∀ k : ℤ, 1 ≤ k → k ≤ 20 → ∃ r : ℚ, 0 ≤ r ∧ r < 1 ∧ getValidProductId r = k) ∧
    getBoundaryProductIds = ⟨1, 20⟩ ∧
    (∀ r : ℚ, 0 ≤ r → r < 1 → 1000 ≤ getInvalidProductId r ∧ getInvalidProductId r ≤ 9999) ∧
    (∀ k : ℤ, 1000 ≤ k → k ≤ 9999 → ∃ r : ℚ, 0 ≤ r ∧ r < 1 ∧ getInvalidProductId r = k) ∧
    (∀ rand : Nat → ℚ, (∀ i, 0 ≤ rand i ∧ rand i < 1) →
      (getNonNumericProductId rand).length = 5 ∧
      ∀ c ∈ (getNonNumericProductId rand).data, c.isAlphanum = true) := by
  refine ⟨getValidProductId_bounds, getValidProductId_surj, rfl,
    getInvalidProductId_bounds, getInvalidProductId_surj, ?_⟩
  intro rand h
  have hs := generateRandomString_spec rand h 5
  exact ⟨hs.1, hs.2⟩

/-- Witness for C6: the conjuncts instantiated at concrete draws. -/
theorem idGenerators_spec_witness :
    (1 ≤ getValidProductId (1 / 2) ∧ getValidProductId (1 / 2) ≤ 20) ∧
    (∃ r : ℚ, 0 ≤ r ∧ r < 1 ∧ getValidProductId r = 7) ∧
    (1000 ≤ getInvalidProductId (1 / 2) ∧ getInvalidProductId (1 / 2) ≤ 9999) ∧
    (∃ r : ℚ, 0 ≤ r ∧ r < 1 ∧ getInvalidProductId r = 2026) ∧
    ((getNonNumericProductId (fun _ => 1 / 2)).length = 5 ∧
      ∀ c ∈ (getNonNumericProductId (fun _ => 1 / 2)).data, c.isAlphanum = true) := by
  refine ⟨idGenerators_spec.1 (1 / 2) (by norm_num) (by norm_num),
    idGenerators_spec.2.1 7 (by norm_num) (by norm_num),
    idGenerators_spec.2.2.2.1 (1 / 2) (by norm_num) (by norm_num),
    idGenerators_spec.2.2.2.2.1 2026 (by norm_num) (by norm_num),
    idGenerators_spec.2.2.2.2.2 (fun _ => 1 / 2) (fun i => ⟨by norm_num, by norm_num⟩)⟩

/-- Lookup in the spread base section: keys are unchanged, values are
replaced by the override when present. -/
theorem lookup_spread_map (ov l : List (String × JsValue)) (k : String) :
    List.lookup k (l.map (fun kv => (kv.1, (List.lookup kv.1 ov).getD kv.2))) =
      (List.lookup k l).map (fun v2 => (List.lookup k ov).getD v2) := by
  induction l with
  | nil => rfl
  | cons hd tl ih =>
    obtain ⟨k2, v2⟩ := hd
    by_cases hk : k = k2
    · subst hk
      simp [List.lookup]
    · have hb : (k == k2) = false := beq_eq_false_iff_ne.mpr hk
      simp [List.lookup, hb, ih]

/-- Lookup distributes over append as an Option.or. -/
theorem lookup_append_js (l₁ l₂ : List (String × JsValue)) (k : String) :
    List.lookup k (l₁ ++ l₂) = (List.lookup k l₁).or (List.lookup k l₂) := by
  induction l₁ with
  | nil => simp [List.lookup]
  | cons hd tl ih =>
    obtain ⟨k2, v2⟩ := hd
    by_cases hk : k = k2
    · subst hk
      simp [List.lookup]
    · have hb : (k == k2) = false := beq_eq_false_iff_ne.mpr hk
      simp [List.lookup, hb, ih]

/-- Filtering with a predicate that keeps every pair with the looked-up
key does not change the lookup. -/
theorem lookup_filter_of_keys (p : String × JsValue → Bool) (l : List (String × JsValue))
    (k : String) (hp : ∀ kv ∈ l, kv.1 = k → p kv = true) :
    List.lookup k (l.filter p) = List.lookup k l := by
  induction l with
  | nil => rfl
  | cons hd tl ih =>
    obtain ⟨k2, v2⟩ := hd
    have ihr := ih (fun kv hm he => hp kv (List.mem_cons_of_mem _ hm) he)
    by_cases hk : k = k2
    · subst hk
      have hpk : p (k, v2) = true := hp (k, v2) (List.mem_cons_self _ _) rfl
      rw [List.filter_cons_of_pos hpk]
      simp [List.lookup]
    · have hb : (k == k2) = false := beq_eq_false_iff_ne.mpr hk
      cases hpk : p (k2, v2) with
      | true =>
        rw [List.filter_cons_of_pos hpk]
        simp [List.lookup, hb, ihr]
      | false =>
        rw [List.filter_cons_of_neg (by rw [hpk]; exact Bool.false_ne_true)]
        simp [List.lookup, hb, ihr]

/-- Filtering never makes a missing key appear. -/
theorem lookup_filter_none (p : String × JsValue → Bool) (l : List (String × JsValue))
    (k : String) (h : List.lookup k l = none) :
    List.lookup k (l.filter p) = none := by
  induction l with
  | nil => rfl
  | cons hd tl ih =>
    obtain ⟨k2, v2⟩ := hd
    cases hbeq : (k == k2) with
    | true =>
      exfalso
      rw [List.lookup_cons, hbeq] at h
      exact Option.noConfusion h
    | false =>
      rw [List.lookup_cons, hbeq] at h
      have ihr := ih h
      cases hpk : p (k2, v2) with
      | true =>
        rw [List.filter_cons_of_pos hpk, List.lookup_cons, hbeq]
        exact ihr
      | false =>
        rw [List.filter_cons_of_neg (by rw [hpk]; exact Bool.false_ne_true)]
        exact ihr

/-- C9: generateProductData agrees with overrides on every overridden key
(falsy values such as an empty title or price 0 included, since the final
spread wins over the field-level defaulting), falls back to the computed
defaults on keys not overridden, and the defaults always supply the five
standard fields. -/
theorem generateProductData_spec (randTitle : Nat → ℚ) (rPrice : ℚ) (randDesc : Nat → ℚ)
    (rCat : ℚ) (overrides : List (String × JsValue)) (k : String) (v : JsValue) :
    (List.lookup k overrides = some v →
      List.lookup k (generateProductData randTitle rPrice randDesc rCat overrides) = some v) ∧
    (List.lookup k overrides = none →
      List.lookup k (generateProductData randTitle rPrice randDesc rCat overrides) =
        List.lookup k (productDefaults randTitle rPrice randDesc rCat overrides)) ∧
    (k ∈ ["title", "price", "description", "image", "category"] →
      (List.lookup k (productDefaults randTitle rPrice randDesc rCat overrides)).isSome = true) := by
  refine ⟨?_, ?_, ?_⟩
  · intro h
    show List.lookup k (spreadMerge (productDefaults randTitle rPrice randDesc rCat overrides)
      overrides) = some v
    unfold spreadMerge
    rw [lookup_append_js, lookup_spread_map]
    cases hb : List.lookup k (productDefaults randTitle rPrice randDesc rCat overrides) with
    | some v0 => simp [h]
    | none =>
      simp only [Option.map_none', Option.none_or]
      rw [lookup_filter_of_keys _ _ _ (fun kv _ he => by rw [he, hb]; rfl)]
      exact h
  · intro h
    show List.lookup k (spreadMerge (productDefaults randTitle rPrice randDesc rCat overrides)
      overrides) = _
    unfold spreadMerge
    rw [lookup_append_js, lookup_spread_map, lookup_filter_none _ _ _ h]
    simp only [h, Option.getD_none]
    cases List.lookup k (productDefaults randTitle rPrice randDesc rCat overrides) <;> rfl
  · intro hk
    rcases List.mem_cons.mp hk with rfl | hk
    · simp [productDefaults, List.lookup]
    rcases List.mem_cons.mp hk with rfl | hk
    · simp [productDefaults, List.lookup]
    rcases List.mem_cons.mp hk with rfl | hk
    · simp [productDefaults, List.lookup]
    rcases List.mem_cons.mp hk with rfl | hk
    · simp [productDefaults, List.lookup]
    rcases List.mem_cons.mp hk with rfl | hk
    · simp [productDefaults, List.lookup]
    exact absurd hk (List.not_mem_nil k)

/-- The overrides used to witness generateProductData_spec: an empty
title and a zero price, both falsy. -/
def overridesW : List (String × JsValue) :=
  [("title", JsValue.str ""), ("price", JsValue.num 0)]

/-- Witness for C9: falsy overrides survive into the generated payload. -/
theorem generateProductData_spec_witness :
    List.lookup "title" (generateProductData (fun _ => 0) 0 (fun _ => 0) 0 overridesW) =
      some (JsValue.str "") ∧
    List.lookup "price" (generateProductData (fun _ => 0) 0 (fun _ => 0) 0 overridesW) =
      some (JsValue.num 0) :=
  ⟨(generateProductData_spec (fun _ => 0) 0 (fun _ => 0) 0 overridesW "title" (JsValue.str "")).1
      rfl,
   (generateProductData_spec (fun _ => 0) 0 (fun _ => 0) 0 overridesW "price" (JsValue.num 0)).1
      rfl⟩

/-- A present key with a non-membership lookup cannot happen. -/
theorem lookup_ne_none_of_mem {β : Type} {k : String} {v : β} {l : List (String × β)}
    (h : (k, v) ∈ l) : List.lookup k l ≠ none := by
  induction l with
  | nil => exact absurd h (List.not_mem_nil _)
  | cons hd tl ih =>
    obtain ⟨k2, v2⟩ := hd
    rcases List.mem_cons.mp h with heq | hm
    · obtain ⟨rfl, rfl⟩ := Prod.mk.injEq k v k2 v2 ▸ heq
      simp [List.lookup]
    · cases hbeq : (k == k2) with
      | false =>
        rw [List.lookup_cons, hbeq]
        exact ih hm
      | true =>
        rw [List.lookup_cons, hbeq]
        exact Option.noConfusion

/-- Pointwise shape of the unknown-key condition. -/
theorem unknown_ok_iff (o : Option Joi) (b : Bool) :
    (¬(o.isNone = true ∧ (!b) = true)) ↔ (o.isSome || b) = true := by
  cases o <;> cases b <;> simp

mutual

/-- The validator reports no violation exactly when the candidate
conforms to the schema. -/
theorem validateConv_nil_iff (s : Joi) (d : JsValue) :
    ((validateConv true s d).2 = [] ↔ conforms s d = true) := by
  cases s with
  | number rules req =>
    cases h : coerceNumber true d with
    | some q =>
      simp [validateConv, conforms, h, List.map_eq_nil_iff, List.filter_eq_nil_iff,
        List.all_eq_true]
    | none =>
      simp [validateConv, conforms, h]
  | string rules req =>
    cases d with
    | str s0 =>
      by_cases he : s0 = ""
      · subst he
        simp [validateConv, conforms]
      · simp [validateConv, conforms, he, List.map_eq_nil_iff, List.filter_eq_nil_iff,
          List.all_eq_true]
    | num q => simp [validateConv, conforms]
    | bool b => simp [validateConv, conforms]
    | obj fields => simp [validateConv, conforms]
    | null => simp [validateConv, conforms]
    | undef => simp [validateConv, conforms]
  | object keys req =>
    cases d with
    | obj fields =>
      have hk := checkKeys_nil_iff keys fields
      simp only [validateConv, conforms, List.append_eq_nil, List.map_eq_nil_iff,
        List.filter_eq_nil_iff, Bool.and_eq_true, List.all_eq_true]
      rw [hk]
      exact and_congr_right (fun _ => forall_congr' (fun kv => forall_congr' (fun _ =>
        unknown_ok_iff (List.lookup kv.1 keys) (isUndefV kv.2))))
    | num q => simp [validateConv, conforms]
    | str s0 => simp [validateConv, conforms]
    | bool b => simp [validateConv, conforms]
    | null => simp [validateConv, conforms]
    | undef => simp [validateConv, conforms]
termination_by sizeOf s

/-- Per-key validation reports no violation exactly when every declared
key conforms. -/
theorem checkKeys_nil_iff (keys : List (String × Joi)) (fields : List (String × JsValue)) :
    (checkKeys true keys fields = [] ↔ conformsKeys keys fields = true) := by
  cases keys with
  | nil => simp [checkKeys, conformsKeys]
  | cons hd rest =>
    obtain ⟨k, sub⟩ := hd
    have hrest := checkKeys_nil_iff rest fields
    cases hg : objGet fields k with
    | none =>
      cases hr : sub.isRequired with
      | true => simp [checkKeys, conformsKeys, hg, hr, hrest, List.append_eq_nil]
      | false => simp [checkKeys, conformsKeys, hg, hr, hrest, List.append_eq_nil]
    | some fv =>
      have hsub := validateConv_nil_iff sub fv
      simp [checkKeys, conformsKeys, hg, hrest, hsub, List.append_eq_nil, List.map_eq_nil_iff]
termination_by sizeOf keys

end

/-- validateSchema reports no error exactly on conforming candidates. -/
theorem validateSchema_nil_iff (data : JsValue) (schema : Joi) :
    ((validateSchema data schema).2 = [] ↔ conforms schema data = true) := by
  simpa [validateSchema, joiValidate] using validateConv_nil_iff schema data

/-- A creation payload violating two rules at once: empty title and
non-positive price. -/
def badCreatePayload : JsValue :=
  JsValue.obj
    [("title", JsValue.str ""), ("price", JsValue.num (-5)),
     ("description", JsValue.str "A product"), ("category", JsValue.str "electronics"),
     ("image", JsValue.str "https://fakestoreapi.com/img/test.jpg")]

/-- C3: validateSchema (abortEarly disabled) returns the empty violation
list exactly on conforming candidates, and otherwise one aggregated list
of every violated rule: the Joi default options would truncate that list
to its first entry, and a doubly-invalid payload indeed yields both its
violations at once. -/
theorem validateSchema_aggregates (schema : Joi) (data : JsValue) :
    ((validateSchema data schema).2 = [] ↔ conforms schema data = true) ∧
    (joiValidate schema data defaultOptions).2 = ((validateSchema data schema).2).take 1 ∧
    (validateSchema badCreatePayload createProductSchema).2 =
      [⟨["title"], "string.empty"⟩, ⟨["price"], "number.positive"⟩] := by
  refine ⟨validateSchema_nil_iff data schema, ?_, by decide⟩
  simp [validateSchema, joiValidate, defaultOptions]

/-- The fields of a fully conforming product object carrying no rating
key. -/
def productNoRatingFields : List (String × JsValue) :=
  [("id", JsValue.num 1), ("title", JsValue.str "Test Product"),
   ("price", JsValue.num 10), ("description", JsValue.str "A product"),
   ("category", JsValue.str "electronics"),
   ("image", JsValue.str "https://fakestoreapi.com/img/test.jpg")]

/-- A conforming product object with no rating key. -/
def productNoRating : JsValue := JsValue.obj productNoRatingFields

/-- C1 counterexample: an object lacking the rating field passes
productSchema validation with no violation, because the rating key of
productSchema does not carry .required(). -/
theorem productSchema_accepts_missing_rating :
    (validateSchema productNoRating productSchema).2 = [] := by decide

/-- A value marked undefined is the undefined value. -/
theorem eq_undef_of_isUndefV {v : JsValue} (h : isUndefV v = true) : v = JsValue.undef := by
  cases v <;> simp [isUndefV] at h ⊢

/-- conforms on a number schema, by cases on the coercion. -/
theorem conforms_number_iff (rules : List NumRule) (req : Bool) (v : JsValue) :
    conforms (Joi.number rules req) v = true ↔
      ∃ q, coerceNumber true v = some q ∧ rules.all (fun r => numRuleOk r q) = true := by
  cases h : coerceNumber true v with
  | some q => simp [conforms, h]
  | none => simp [conforms, h]

/-- Conformance to the rating schema characterised: both fields coerce to
numbers, rate lies in [0,5], count is a non-negative integer. -/
theorem conforms_ratingSchema_iff (rate count : JsValue) :
    conforms ratingSchema (JsValue.obj [("rate", rate), ("count", count)]) = true ↔
      ∃ q c : ℚ, coerceNumber true rate = some q ∧ coerceNumber true count = some c ∧
        0 ≤ q ∧ q ≤ 5 ∧ c.den = 1 ∧ 0 ≤ c := by
  have b1 : ("rate" == "rate") = true := rfl
  have b2 : ("rate" == "count") = false := rfl
  have b3 : ("count" == "rate") = false := rfl
  have b4 : ("count" == "count") = true := rfl
  by_cases hur : isUndefV rate = true
  · rw [eq_undef_of_isUndefV hur]
    simp [ratingSchema, conforms, conformsKeys, objGet, List.lookup, coerceNumber,
      Joi.isRequired, b1, b2, b3, b4]
  by_cases huc : isUndefV count = true
  · rw [eq_undef_of_isUndefV huc]
    simp [ratingSchema, conforms, conformsKeys, objGet, List.lookup, coerceNumber,
      Joi.isRequired, b1, b2, b3, b4]
  · have hrv : objGet [("rate", rate), ("count", count)] "rate" = some rate := by
      cases rate <;> simp_all [objGet, List.lookup, isUndefV, b1, b2]
    have hcv : objGet [("rate", rate), ("count", count)] "count" = some count := by
      cases count <;> simp_all [objGet, List.lookup, isUndefV, b3, b4]
    simp only [ratingSchema, conforms, conformsKeys, hrv, hcv, Bool.and_eq_true,
      List.all_cons, List.all_nil, List.lookup, b1, b2, b3, b4]
    simp only [Option.isSome_some, Bool.true_or, and_true, true_and]
    cases hq : coerceNumber true rate with
    | none => simp
    | some q =>
      cases hc : coerceNumber true count with
      | none => simp
      | some c =>
        simp only [numRuleOk, Bool.and_eq_true, decide_eq_true_eq, and_true, true_and,
          Option.some.injEq]
        constructor
        · rintro ⟨⟨hq1, hq2⟩, hc1, hc2⟩
          exact ⟨q, c, rfl, rfl, hq1, hq2, hc1, hc2⟩
        · rintro ⟨q2, c2, rfl, rfl, h1, h2, h3, h4⟩
          exact ⟨⟨h1, h2⟩, h3, h4⟩

/-- C1 amended: the rating key of productSchema is optional — an object
missing rating but otherwise conforming validates with no violation —
while a present rating must (after numeric coercion) have rate in [0,5]
and a non-negative integer count, and any rating violation makes the
full-product validation fail. -/
theorem productSchema_rating_optional :
    (validateSchema productNoRating productSchema).2 = [] ∧
    (∀ rate count : JsValue,
      ((validateConv true ratingSchema (JsValue.obj [("rate", rate), ("count", count)])).2 = []
        ↔ ∃ q c : ℚ, coerceNumber true rate = some q ∧ coerceNumber true count = some c ∧
            0 ≤ q ∧ q ≤ 5 ∧ c.den = 1 ∧ 0 ≤ c)) ∧
    (∀ rv : JsValue, isUndefV rv = false → (validateConv true ratingSchema rv).2 ≠ [] →
      (validateSchema (JsValue.obj (productNoRatingFields ++ [("rating", rv)]))
          productSchema).2 ≠ []) := by
  refine ⟨by decide, ?_, ?_⟩
  · intro rate count
    rw [validateConv_nil_iff]
    exact conforms_ratingSchema_iff rate count
  · intro rv hundef hne hnil
    apply hne
    rw [validateConv_nil_iff]
    have hc := (validateSchema_nil_iff _ _).mp hnil
    have hobj : objGet (productNoRatingFields ++ [("rating", rv)]) "rating" = some rv := by
      cases rv <;> simp_all [objGet, List.lookup, productNoRatingFields, isUndefV]
    simp only [productSchema, conforms, conformsKeys, Bool.and_eq_true, Bool.and_true,
      hobj] at hc
    obtain ⟨⟨h1, h2, h3, h4, h5, h6, h7⟩, hall⟩ := hc
    exact h7

/-- Witness for C1: an empty rating object (missing both required rating
fields) makes full-product validation fail. -/
theorem productSchema_rating_optional_witness :
    (validateSchema (JsValue.obj (productNoRatingFields ++ [("rating", JsValue.obj [])]))
        productSchema).2 ≠ [] :=
  productSchema_rating_optional.2.2 (JsValue.obj []) rfl (by decide)

/-- A conforming creation payload whose price is the number 0. -/
def zeroPricePayload : JsValue :=
  JsValue.obj
    [("title", JsValue.str "Test Product"), ("price", JsValue.num 0),
     ("description", JsValue.str "A product"), ("category", JsValue.str "electronics"),
     ("image", JsValue.str "https://fakestoreapi.com/img/test.jpg")]

/-- C2 counterexample: a payload with every required string field present
and price exactly 0 is rejected by createProductSchema with a positivity
violation, because the schema demands a strictly positive price. -/
theorem createProductSchema_rejects_zero_price :
    (validateSchema zeroPricePayload createProductSchema).2 =
      [⟨["price"], "number.positive"⟩] := by decide

/-- The creation payload fields in schema order, parameterised by their
values. -/
def createPayloadFields (title : String) (p : ℚ) (desc cat img : String) :
    List (String × JsValue) :=
  [("title", JsValue.str title), ("price", JsValue.num p),
   ("description", JsValue.str desc), ("category", JsValue.str cat),
   ("image", JsValue.str img)]

/-- C2 amended: createProductSchema accepts every payload with nonempty
string fields, a uri image and a strictly positive price; it rejects
price 0, and it rejects a present id or rating key as unknown. -/
theorem createProductSchema_spec (title desc cat img : String) (p : ℚ)
    (htitle : title ≠ "") (hdesc : desc ≠ "") (hcat : cat ≠ "")
    (huri : isUri img = true) (hp : 0 < p) :
    (validateSchema (JsValue.obj (createPayloadFields title p desc cat img))
        createProductSchema).2 = [] ∧
    (validateSchema (JsValue.obj (createPayloadFields title 0 desc cat img))
        createProductSchema).2 ≠ [] ∧
    (validateSchema (JsValue.obj (createPayloadFields title p desc cat img ++
        [("id", JsValue.num 1)])) createProductSchema).2 ≠ [] ∧
    (validateSchema (JsValue.obj (createPayloadFields title p desc cat img ++
        [("rating", JsValue.obj [("rate", JsValue.num 4), ("count", JsValue.num 100)])]))
        createProductSchema).2 ≠ [] := by
  have himg : img ≠ "" := by
    intro h
    rw [h] at huri
    exact absurd huri (by decide)
  refine ⟨?_, ?_, ?_, ?_⟩
  · rw [validateSchema_nil_iff]
    simp [createProductSchema, createPayloadFields, conforms, conformsKeys, objGet,
      List.lookup, coerceNumber, numRuleOk, strRuleOk, Joi.isRequired, isUndefV,
      htitle, hdesc, hcat, himg, huri, hp]
  · rw [Ne, validateSchema_nil_iff]
    simp [createProductSchema, createPayloadFields, conforms, conformsKeys, objGet,
      List.lookup, coerceNumber, numRuleOk, strRuleOk, Joi.isRequired, isUndefV]
  · rw [Ne, validateSchema_nil_iff]
    simp [createProductSchema, createPayloadFields, conforms, conformsKeys, objGet,
      List.lookup, coerceNumber, numRuleOk, strRuleOk, Joi.isRequired, isUndefV]
  · rw [Ne, validateSchema_nil_iff]
    simp [createProductSchema, createPayloadFields, conforms, conformsKeys, objGet,
      List.lookup, coerceNumber, numRuleOk, strRuleOk, Joi.isRequired, isUndefV]

/-- Witness for C2: a concrete conforming payload with price 5. -/
theorem createProductSchema_spec_witness :
    (validateSchema (JsValue.obj (createPayloadFields "T" 5 "D" "C" "https://x.com/a"))
        createProductSchema).2 = [] ∧
    (validateSchema (JsValue.obj (createPayloadFields "T" 0 "D" "C" "https://x.com/a"))
        createProductSchema).2 ≠ [] :=
  ⟨(createProductSchema_spec "T" "D" "C" "https://x.com/a" 5 (by decide) (by decide)
      (by decide) (by decide) (by norm_num)).1,
   (createProductSchema_spec "T" "D" "C" "https://x.com/a" 5 (by decide) (by decide)
      (by decide) (by decide) (by norm_num)).2.1⟩

/-- JavaScript property access on a value. -/
def jsField : JsValue → String → Option JsValue
  | JsValue.obj fields, k => List.lookup k fields
  | _, _ => none

/-- The full-product object whose price field is the numeric string 25. -/
def productStrPriceFields : List (String × JsValue) :=
  [("id", JsValue.num 1), ("title", JsValue.str "Test Product"),
   ("price", JsValue.str "25"), ("description", JsValue.str "A product"),
   ("category", JsValue.str "electronics"),
   ("image", JsValue.str "https://fakestoreapi.com/img/test.jpg")]

/-- The object carrying the string price. -/
def productStrPrice : JsValue := JsValue.obj productStrPriceFields

/-- C4 counterexample: a product whose price is the numeric string 25
passes productSchema validation with no violation — Joi default options
coerce the string, so no type violation is reported. -/
theorem productSchema_accepts_string_price :
    (validateSchema productStrPrice productSchema).2 = [] := by decide

/-- C4 amended: validation never mutates the candidate, but with convert
on (the Joi default used by validateSchema) the numeric string price is
accepted and coerced: the returned value carries price 25 as a number
while the input still carries the string. -/
theorem validateSchema_coerces_without_mutation :
    (validateSchema productStrPrice productSchema).2 = [] ∧
    jsField (validateSchema productStrPrice productSchema).1 "price" =
      some (JsValue.num 25) ∧
    jsField productStrPrice "price" = some (JsValue.str "25") := by
  refine ⟨by decide, by rfl, by rfl⟩
